import Mathlib

/-!
Verification development for the grimlock lit-html-to-Soy converter.

The definitions below are a shallow embedding of the converter source:

* `Node`, `isExpression`, `Node.emit` embed the Soy output AST
  (`soy-ast`, classes `File` .. `Record`): each TS class becomes one
  constructor, the lazy `emit()` generators become an `Except`-valued
  serializer where a thrown exception is `Except.error`, and the
  `instanceof Expression` test becomes `isExpression` (note that the TS
  class `Ternary` does not extend `Expression`, which `isExpression`
  reproduces).
* `getReflectedAttribute` embeds `reflected-attribute-name.ts` with its
  data table and map-of-maps construction.
* `getSoyType`, `getSoyTypeOfNode`, `getOriginalSymbol`, `isInScope`,
  `convertBody`, `processAttr` and the run model embed the corresponding
  members of `SoyConverter` in `soy-generator.ts`; the TypeScript type
  checker is abstracted as data carried on the inputs (assignability
  flags, resolved declarations).
-/

/-- One Soy output AST node; one constructor per class of the soy-ast
module. `soyNamespace` embeds the class `Namespace`. -/
inductive Node where
  | file (commands : List Node)
  | soyNamespace (value : String)
  | template (name : String) (commands : List Node)
  | templateParameter (name : String) (type? : Option String)
  | rawText (value : String)
  | print (child : Node)
  | block (children : List Node)
  | callParameter (name : String) (value : Node) (kind? : Option String)
  | callCommand (templateName : String) (parameters : List Node)
  | ifCommand (condition : Node) (whenTrue : List Node) (whenFalse : List Node)
  | forCommand (identifier : String) (expression : Node) (body : List Node)
  | letCommand (identifier : String) (value : Node) (kind? : Option String)
  | numberLiteral (text : String)
  | booleanLiteral (text : String)
  | nullLiteral
  | stringLiteral (text : String)
  | identifier (value : String)
  | unaryOperator (operator : String) (child : Node)
  | binaryOperator (operator : String) (left : Node) (right : Node)
  | propertyAccess (receiver : Node) (name : String)
  | callExpression (functionName : String) (args : List Node)
  | errorExpression
  | paren (child : Node)
  | index (receiver : Node) (argument : Node)
  | ternary (condition : Node) (trueExpr : Node) (falseExpr : Node)
  | record (entries : List (String × Node))

/-- The TS `value instanceof Expression` test of `CallParameter.emit` and
`LetCommand.emit`: true exactly for the subclasses of the abstract class
`Expression`. The class `Ternary` does not extend `Expression` in the
source, so `ternary` maps to `false`. -/
def isExpression : Node → Bool
  | .numberLiteral _ => true
  | .booleanLiteral _ => true
  | .nullLiteral => true
  | .stringLiteral _ => true
  | .identifier _ => true
  | .unaryOperator _ _ => true
  | .binaryOperator _ _ _ => true
  | .propertyAccess _ _ => true
  | .callExpression _ _ => true
  | .errorExpression => true
  | .paren _ => true
  | .index _ _ => true
  | .record _ => true
  | _ => false

/-- The message of the exception thrown by `ErrorExpression.emit`. -/
def emitErrorMessage : String := "Cannot emit Empty Soy nodes"

/-- `kindString` helper of `CallParameter.emit` and `LetCommand.emit`. -/
def kindString : Option String → String
  | none => ""
  | some k => " kind=\"" ++ k ++ "\""

/-- `typeString` helper of `TemplateParameter.emit`. -/
def typeString : Option String → String
  | none => ""
  | some t => ": " ++ t

mutual

/-- Serialization: concatenates the chunks yielded by each `emit()`
generator of the soy-ast module; a thrown exception is `Except.error`.
Braces in the emitted Soy text are written as `\x7b` and `\x7d`. -/
def Node.emit : Node → Except String String
  | .file cs => emitList cs
  | .soyNamespace v => .ok ("\x7bnamespace " ++ v ++ "\x7d\n")
  | .template name cs =>
    match emitList cs with
    | .error e => .error e
    | .ok body => .ok ("\n\x7btemplate ." ++ name ++ "\x7d\n" ++ body ++ "\n\x7b/template\x7d\n")
  | .templateParameter name t =>
    .ok ("  \x7b@param " ++ name ++ typeString t ++ "\x7d\n")
  | .rawText v => .ok v
  | .print c =>
    match c.emit with
    | .error e => .error e
    | .ok s => .ok ("\x7b" ++ s ++ "\x7d")
  | .block cs => emitList cs
  | .callParameter name v kind =>
    match v.emit with
    | .error e => .error e
    | .ok s =>
      if isExpression v then
        .ok ("\x7bparam " ++ name ++ ": " ++ s ++ " /\x7d")
      else
        .ok ("\n\x7bparam " ++ name ++ kindString kind ++ "\x7d" ++ s ++ "\n\x7b/param\x7d")
  | .callCommand templateName ps =>
    match emitList ps with
    | .error e => .error e
    | .ok s =>
      if ps.length ≠ 0 then
        .ok ("\x7bcall ." ++ templateName ++ "\x7d" ++ s ++ "\n\x7b/call\x7d")
      else
        .ok ("\x7bcall ." ++ templateName ++ " /\x7d" ++ s)
  | .ifCommand cond wt wf =>
    match cond.emit with
    | .error e => .error e
    | .ok c =>
      match emitList wt with
      | .error e => .error e
      | .ok t =>
        match emitList wf with
        | .error e => .error e
        | .ok f =>
          .ok ("\n\x7bif " ++ c ++ "\x7d\n" ++ t ++ "\n\x7belse\x7d\n" ++ f ++ "\n\x7b/if\x7d\n")
  | .forCommand id e body =>
    match e.emit with
    | .error er => .error er
    | .ok s =>
      match emitList body with
      | .error er => .error er
      | .ok b => .ok ("\n\x7bfor $" ++ id ++ " in " ++ s ++ "\x7d\n" ++ b ++ "\n\x7b/for\x7d\n")
  | .letCommand id v kind =>
    match v.emit with
    | .error e => .error e
    | .ok s =>
      if isExpression v then
        .ok ("\n\x7blet $" ++ id ++ ": " ++ s ++ " /\x7d\n")
      else
        .ok ("\n\x7blet $" ++ id ++ kindString kind ++ "\x7d\n" ++ s ++ "\n\x7b/let\x7d\n")
  | .numberLiteral t => .ok t
  | .booleanLiteral t => .ok t
  | .nullLiteral => .ok "null"
  | .stringLiteral t => .ok t
  | .identifier v => .ok ("$" ++ v)
  | .unaryOperator op c =>
    match c.emit with
    | .error e => .error e
    | .ok s => .ok (op ++ s)
  | .binaryOperator op l r =>
    match l.emit with
    | .error e => .error e
    | .ok ls =>
      match r.emit with
      | .error e => .error e
      | .ok rs => .ok (ls ++ " " ++ op ++ " " ++ rs)
  | .propertyAccess r name =>
    match r.emit with
    | .error e => .error e
    | .ok s => .ok (s ++ "." ++ name)
  | .callExpression fname args =>
    match emitArgs args with
    | .error e => .error e
    | .ok s => .ok (fname ++ "(" ++ s ++ ")")
  | .errorExpression => .error emitErrorMessage
  | .paren c =>
    match c.emit with
    | .error e => .error e
    | .ok s => .ok ("(" ++ s ++ ")")
  | .index r a =>
    match r.emit with
    | .error e => .error e
    | .ok rs =>
      match a.emit with
      | .error e => .error e
      | .ok as_ => .ok (rs ++ "[" ++ as_ ++ "]")
  | .ternary c t f =>
    match c.emit with
    | .error e => .error e
    | .ok cs =>
      match t.emit with
      | .error e => .error e
      | .ok ts =>
        match f.emit with
        | .error e => .error e
        | .ok fs => .ok (cs ++ " ? " ++ ts ++ " : " ++ fs)
  | .record es =>
    match emitEntries es with
    | .error e => .error e
    | .ok s => .ok ("record(" ++ s ++ ")")

/-- Emits a list of commands in order, as the loops of the `emit()`
generators of `File`, `Template`, `Block`, `IfCommand` etc. do. -/
def emitList : List Node → Except String String
  | [] => .ok ""
  | c :: cs =>
    match c.emit with
    | .error e => .error e
    | .ok s =>
      match emitList cs with
      | .error e => .error e
      | .ok r => .ok (s ++ r)

/-- Emits call arguments separated by a comma, as `CallExpression.emit`. -/
def emitArgs : List Node → Except String String
  | [] => .ok ""
  | [a] => a.emit
  | a :: rest =>
    match a.emit with
    | .error e => .error e
    | .ok s =>
      match emitArgs rest with
      | .error e => .error e
      | .ok r => .ok (s ++ ", " ++ r)

/-- Emits record entries `key: value` separated by a comma, as
`Record.emit`. -/
def emitEntries : List (String × Node) → Except String String
  | [] => .ok ""
  | [(k, v)] =>
    match v.emit with
    | .error e => .error e
    | .ok s => .ok (k ++ ": " ++ s)
  | (k, v) :: rest =>
    match v.emit with
    | .error e => .error e
    | .ok s =>
      match emitEntries rest with
      | .error e => .error e
      | .ok r => .ok (k ++ ": " ++ s ++ ", " ++ r)

end

/-- The `content` getter of the output file built by
`SoyConverter.convertFile`: concatenate every chunk of the output AST
emission and trim the result; an exception during emission propagates. -/
def fileContent (outputAST : Node) : Except String String :=
  match outputAST.emit with
  | .error e => .error e
  | .ok s => .ok s.trim

mutual

/-- Whether a tree contains an `ErrorExpression` node anywhere among the
nodes its serialization visits. -/
def containsError : Node → Bool
  | .file cs => containsErrorList cs
  | .soyNamespace _ => false
  | .template _ cs => containsErrorList cs
  | .templateParameter _ _ => false
  | .rawText _ => false
  | .print c => containsError c
  | .block cs => containsErrorList cs
  | .callParameter _ v _ => containsError v
  | .callCommand _ ps => containsErrorList ps
  | .ifCommand cond wt wf =>
    containsError cond || containsErrorList wt || containsErrorList wf
  | .forCommand _ e body => containsError e || containsErrorList body
  | .letCommand _ v _ => containsError v
  | .numberLiteral _ => false
  | .booleanLiteral _ => false
  | .nullLiteral => false
  | .stringLiteral _ => false
  | .identifier _ => false
  | .unaryOperator _ c => containsError c
  | .binaryOperator _ l r => containsError l || containsError r
  | .propertyAccess r _ => containsError r
  | .callExpression _ args => containsErrorList args
  | .errorExpression => true
  | .paren c => containsError c
  | .index r a => containsError r || containsError a
  | .ternary c t f => containsError c || containsError t || containsError f
  | .record es => containsErrorEntries es

/-- `containsError` over a command list. -/
def containsErrorList : List Node → Bool
  | [] => false
  | c :: cs => containsError c || containsErrorList cs

/-- `containsError` over record entries. -/
def containsErrorEntries : List (String × Node) → Bool
  | [] => false
  | (_, v) :: rest => containsError v || containsErrorEntries rest

end

/-- A diagnostic as pushed by `SoyConverter.report`. -/
structure Diagnostic where
  fileName : String
  line : Nat
  character : Nat
  message : String
deriving DecidableEq, Repr

/-- `SoyConverter.report`: appends one diagnostic to the converter
diagnostics array and returns; it never throws. -/
def report (diagnostics : List Diagnostic) (d : Diagnostic) : List Diagnostic :=
  diagnostics ++ [d]

/-- One entry of the reflected-attribute table: the class `Reflection` of
reflected-attribute-name.ts. -/
structure Reflection where
  propertyName : String
  attributeName : String
  isBoolean : Bool
deriving DecidableEq, Repr

/-- `new Reflection(p)`: the attribute name defaults to the property
name. -/
def Reflection.ofProperty (p : String) : Reflection :=
  ⟨p, p, false⟩

/-- `new Reflection(p, a)`. -/
def Reflection.ofPair (p a : String) : Reflection :=
  ⟨p, a, false⟩

/-- `Reflection.setBoolean()`. -/
def Reflection.setBoolean (r : Reflection) : Reflection :=
  { r with isBoolean := true }

/-- The table `reflectedAttributesSource` of reflected-attribute-name.ts,
entry for entry. -/
def reflectedAttributesSource : List (List String × List Reflection) :=
  [ (["input", "option"], [Reflection.ofProperty "value"]),
    (["input"],
      [ (Reflection.ofProperty "checked").setBoolean,
        (Reflection.ofProperty "disabled").setBoolean,
        (Reflection.ofProperty "indeterminate").setBoolean ]),
    (["*"], [Reflection.ofPair "className" "class", Reflection.ofProperty "id"]) ]

/-- A JS `Map` modelled as an association list; `mapSet` is `Map.set`
(overwrites an existing key, otherwise appends). -/
def mapSet {α β : Type} [DecidableEq α] (m : List (α × β)) (k : α) (v : β) : List (α × β) :=
  if m.any (fun p => p.1 = k) then
    m.map (fun p => if p.1 = k then (k, v) else p)
  else
    m ++ [(k, v)]

/-- `addReflectionForElement`: inserts one reflection into the per-element
map, creating the element entry when absent. -/
def addReflectionForElement (tbl : List (String × List (String × Reflection)))
    (elementName : String) (r : Reflection) : List (String × List (String × Reflection)) :=
  match tbl.lookup elementName with
  | some m => mapSet tbl elementName (mapSet m r.propertyName r)
  | none => mapSet tbl elementName [(r.propertyName, r)]

/-- The map of maps `reflectedAttributes`, built by the module-level loops
of reflected-attribute-name.ts over `reflectedAttributesSource`. -/
def reflectedAttributes : List (String × List (String × Reflection)) :=
  reflectedAttributesSource.foldl
    (fun tbl entry =>
      entry.1.foldl
        (fun tbl elementName =>
          entry.2.foldl (fun tbl r => addReflectionForElement tbl elementName r) tbl)
        tbl)
    []

/-- The lookup into the wildcard entry, `reflectedAttributes.get(1).get(p)`
where the argument of the outer get is the star tag. -/
def wildcardReflection (propertyName : String) : Option Reflection :=
  ((reflectedAttributes.lookup "*").getD []).lookup propertyName

/-- `getReflectedAttribute` of reflected-attribute-name.ts: the
tag-specific map wins when it holds the property, else the wildcard map;
`none` when neither holds it. The result pairs the reflected attribute
name with the boolean-valued flag. -/
def getReflectedAttribute (propertyName tagName : String) : Option (String × Bool) :=
  match reflectedAttributes.lookup tagName with
  | some attributes =>
    match attributes.lookup propertyName with
    | some r => some (r.attributeName, r.isBoolean)
    | none => (wildcardReflection propertyName).map (fun r => (r.attributeName, r.isBoolean))
  | none => (wildcardReflection propertyName).map (fun r => (r.attributeName, r.isBoolean))

/-- A host type as `getSoyType` observes it through the checker: the five
`isAssignableToType` answers against the reference shapes (boolean,
number, string, null-or-undefined, array-of-any), the two object flags
the array branch inspects, and the type arguments of a type reference
(`none` embeds an undefined `typeArguments`). -/
inductive TsType where
  | mk (assignableToBoolean assignableToNumber assignableToString
        assignableToNullish assignableToArray isObject isReference : Bool)
       (typeArguments : Option (List TsType))

/-- `SoyConverter.getSoyType`: assignability tests in the fixed order
boolean, number, string, nullish, array; the array branch throws
(`Except.error`) when the type is not an object type reference, returns
the bare list type for a missing or empty type-argument list, renders
`list` of the recursively mapped single type argument (an undefined
recursive result prints as the text undefined, as a JS template literal
does), and falls through to `undefined` (`Except.ok none`) for two or
more type arguments or when no shape matched. -/
def getSoyType : TsType → Except String (Option String)
  | .mk b n s nl arr obj ref args =>
    if b then .ok (some "bool")
    else if n then .ok (some "number")
    else if s then .ok (some "string")
    else if nl then .ok (some "null")
    else if arr then
      if !obj then .error "unexpected type"
      else if !ref then .error "unexpected type"
      else
        match args with
        | none => .ok (some "list")
        | some [] => .ok (some "list")
        | some [t0] =>
          match getSoyType t0 with
          | .error e => .error e
          | .ok s0 => .ok (some ("list<" ++ s0.getD "undefined" ++ ">"))
        | some _ => .ok none
    else .ok none

/-- `SoyConverter.getSoyTypeOfNode` restricted to what it does with the
checker answers: when the name has no symbol, or when `getSoyType`
returns undefined, an unknown-type diagnostic is reported; a throw from
`getSoyType` propagates. -/
def getSoyTypeOfNode (symbolFound : Bool) (t : TsType) (diagnostics : List String) :
    Except String (Option String × List String) :=
  if !symbolFound then .ok (none, diagnostics ++ ["unknown type"])
  else
    match getSoyType t with
    | .error e => .error e
    | .ok none => .ok (none, diagnostics ++ ["unknown type"])
    | .ok (some s) => .ok (some s, diagnostics)

/-- A checker symbol as `getOriginalSymbol` observes it. -/
structure TsSymbol where
  name : String
  isAlias : Bool
deriving DecidableEq, Repr

/-- `SoyConverter.getOriginalSymbol`: throws when the checker returns no
symbol for the identifier or a symbol with an empty declaration list;
otherwise follows one alias step. `lookup` is the
`checker.getSymbolAtLocation` answer, `declCount` the length of
`symbol.declarations`, and `aliased` the `checker.getAliasedSymbol`
answer. -/
def getOriginalSymbol (identifierText : String) (lookup : Option TsSymbol)
    (declCount : Nat) (aliased : TsSymbol) : Except String TsSymbol :=
  match lookup with
  | none => .error ("Could not find symbol for identifier: " ++ identifierText)
  | some symbol =>
    if declCount = 0 then
      .error ("Could not find symbol for identifier: " ++ identifierText)
    else if symbol.isAlias then .ok aliased
    else .ok symbol

/-- A source declaration as the scope resolver observes it: its identity,
whether it is a parameter declaration (`ts.isParameter`), and the
identity of its immediate parent function when it is one. -/
structure Declaration where
  declId : Nat
  isParam : Bool
  parentFunc : Nat
deriving DecidableEq, Repr

/-- One scope frame of `TemplateScope.scopes`: either a function
(parameters resolve against it) or an explicit set of local
declarations. -/
inductive ScopeFrame where
  | funcFrame (funcId : Nat)
  | localFrame (decls : List Declaration)
deriving DecidableEq, Repr

/-- `TemplateScope` of soy-generator.ts: frames innermost first, plus an
optional enclosing LitElement class. -/
structure TemplateScope where
  scopes : List ScopeFrame
  element : Option Nat := none
deriving DecidableEq, Repr

/-- An identifier together with the declaration the type checker resolves
it to (`getIdentifierDeclaration`; `none` when the checker finds no
symbol or no declarations). -/
structure IdentRef where
  text : String
  resolved : Option Declaration
deriving DecidableEq, Repr

/-- `SoyConverter.isParameterOf`: the resolved declaration is a parameter
whose immediate parent is exactly the given function. -/
def isParameterOf (id : IdentRef) (funcId : Nat) : Bool :=
  match id.resolved with
  | some d => d.isParam && d.parentFunc == funcId
  | none => false

/-- Whether one scope frame matches the identifier: the branch bodies of
the loop of `SoyConverter.isInScope`. -/
def frameMatches (id : IdentRef) : ScopeFrame → Bool
  | .localFrame decls =>
    match id.resolved with
    | some d => decls.contains d
    | none => false
  | .funcFrame f => isParameterOf id f

/-- `SoyConverter.isInScope`: walk the frames innermost-to-outermost and
stop at the first match; false when no frame matches. -/
def isInScope (id : IdentRef) (scope : TemplateScope) : Bool :=
  scope.scopes.any (frameMatches id)

/-- The index of the first frame matching the identifier, making the
first-match-wins order of the `isInScope` loop observable. -/
def firstMatchingFrame (id : IdentRef) (scope : TemplateScope) : Option Nat :=
  scope.scopes.findIdx? (frameMatches id)

/-- The `Identifier` case of `SoyConverter.convertExpression` (with the
fall-through to the unsupported-expression default after the `break`): an
in-scope identifier becomes a Soy identifier; otherwise both diagnostics
are reported and an error marker is returned. -/
def convertIdentifierExpr (id : IdentRef) (scope : TemplateScope) (diags : List String) :
    Node × List String :=
  if isInScope id scope then (Node.identifier id.text, diags)
  else
    (Node.errorExpression,
      diags ++ ["identifier references non-local parameter",
        "unsupported expression: " ++ id.text])

/-- Classification of one interpolation site, `PartType` of
soy-generator.ts. -/
inductive PartType where
  | text
  | attribute
deriving DecidableEq, Repr

/-- The listener expression of an event-binding attribute as
`convertListenerExpression` observes it through the checker: no symbol,
a symbol that is not a `this` method access (with the source text used
in the diagnostic), or a `this` method access with the method name. -/
inductive ListenerModel where
  | unknownSymbol
  | notInstanceMethod (sourceText : String)
  | instanceMethod (methodName : String)
deriving DecidableEq, Repr

/-- `SoyConverter.convertListenerExpression`: returns the jsaction raw
text command, or no command plus the reported diagnostic. -/
def convertListenerExpression (listener : ListenerModel) (eventType : String) :
    Option Node × List String :=
  match listener with
  | .unknownSymbol => (none, ["unknown class method"])
  | .notInstanceMethod t =>
    (none, ["event bindings must be instance method references: " ++ t])
  | .instanceMethod m =>
    (some (.rawText (" jsaction=\"" ++ eventType ++ ":\x7bxid(\x27" ++ m ++ "\x27)\x7d\"")), [])

/-- The syntactic kind of one parsed attribute inside the element branch
of `convertLitTaggedTemplateExpression`: a property binding (leading dot;
`sourcePropertyName` is the name the `lastAttributeNameRegex` recovers
from the source chunk, without the dot), an event binding (leading at
sign), the reserved boolean-toggle binding (leading question mark), or a
plain attribute. -/
inductive AttrKind where
  | property (sourcePropertyName : String)
  | event (eventType : String) (listener : ListenerModel)
  | question
  | plain (name : String)
deriving DecidableEq, Repr

/-- One attribute of an element: its kind and its value split on the
marker token (`value.split(markerRegex)`; one more literal than there are
interpolations in the value). -/
structure AttrModel where
  kind : AttrKind
  textLiterals : List String

/-- The mutable state of the attribute loop: the part classification list
(whose length indexes `expressions`), the emitted commands and the
diagnostics. -/
structure ConvState where
  partTypes : List PartType
  commands : List Node
  diags : List String

/-- The interleaved print and literal segments of a bound plain
attribute: one `Print` of `expressions[partTypes.length]` then the
following literal, per remaining literal. `exprs` holds the interpolated
expressions already converted by `convertExpression`. -/
def attrValueSegments (exprs : List Node) : Nat → List String → List Node
  | _, [] => []
  | idx, lit :: rest =>
    Node.print (exprs.getD idx Node.errorExpression) :: Node.rawText lit ::
      attrValueSegments exprs (idx + 1) rest

/-- The shared tail of the attribute loop after name/boolean resolution:
unbound attributes are copied verbatim, a boolean-reflected bound
attribute must be exactly one interpolation with only empty literals
(else diagnostic, attribute dropped, its interpolations all classified
attribute), and a plain bound attribute becomes quote-delimited
alternating literal and print segments. -/
def processValue (name : String) (isBoolean : Bool) (exprs : List Node)
    (st : ConvState) (textLiterals : List String) : ConvState :=
  if textLiterals.length ≤ 1 then
    { st with commands :=
        st.commands ++ [Node.rawText (" " ++ name ++ "=\"" ++ textLiterals.headD "" ++ "\"")] }
  else if isBoolean then
    if textLiterals.length > 2 || textLiterals.any (fun l => l ≠ "") then
      { st with
        diags := st.diags ++
          ["boolean attribute " ++ name ++ " must only contain a single expression."],
        partTypes := st.partTypes ++ List.replicate (textLiterals.length - 1) PartType.attribute }
    else
      { st with
        commands := st.commands ++
          [ Node.rawText " ",
            Node.ifCommand (exprs.getD st.partTypes.length Node.errorExpression)
              [Node.rawText name] [] ],
        partTypes := st.partTypes ++ [PartType.attribute] }
  else
    { st with
      commands := st.commands ++ [Node.rawText (" " ++ name ++ "=\"")]
        ++ [Node.rawText (textLiterals.headD "")]
        ++ attrValueSegments exprs st.partTypes.length textLiterals.tail
        ++ [Node.rawText "\""],
      partTypes := st.partTypes ++ List.replicate (textLiterals.length - 1) PartType.attribute }

/-- One iteration of the attribute loop of
`convertLitTaggedTemplateExpression`: a property binding is renamed via
`getReflectedAttribute` (an unreflected one consumes one attribute part
and is dropped), an event binding consumes one attribute part and emits
the jsaction command or a diagnostic, a question-mark binding consumes
one attribute part with an unsupported-binding diagnostic, and plain
attributes take the shared value path. -/
def processAttr (tagName : String) (exprs : List Node) (st : ConvState) (a : AttrModel) :
    ConvState :=
  match a.kind with
  | .property propName =>
    match getReflectedAttribute propName tagName with
    | some (name, isBoolean) => processValue name isBoolean exprs st a.textLiterals
    | none => { st with partTypes := st.partTypes ++ [PartType.attribute] }
  | .event eventType listener =>
    let result := convertListenerExpression listener eventType
    { st with
      partTypes := st.partTypes ++ [PartType.attribute],
      commands := st.commands ++ result.1.toList,
      diags := st.diags ++ result.2 }
  | .question =>
    { st with
      diags := st.diags ++ ["unsupported binding type: ?"],
      partTypes := st.partTypes ++ [PartType.attribute] }
  | .plain name => processValue name false exprs st a.textLiterals

/-- The whole attribute loop over one element. -/
def processAttrs (tagName : String) (exprs : List Node) (st : ConvState)
    (attrs : List AttrModel) : ConvState :=
  attrs.foldl (processAttr tagName exprs) st

/-- One statement of a block-bodied template function as
`convertLitTemplateFunctionBody` dispatches on it: a return statement
(`litTemplate` holds the converted commands when its expression is a
lit-html tagged template, `none` otherwise), a variable statement with
its const flag and its declarations (initializers already converted by
`convertExpression`), or any other statement form. -/
inductive StmtModel where
  | ret (litTemplate : Option (List Node))
  | varStmt (isConst : Bool) (decls : List (String × Node))
  | other

/-- `SoyConverter.convertReturnStatement`: a return whose expression is
not a lit-html tagged template yields no commands and the
must-return-a-TemplateResult diagnostic. -/
def convertReturnStatementModel : Option (List Node) → List Node × List String
  | none => ([], ["litTemplates must return a TemplateResult"])
  | some cmds => (cmds, [])

/-- One iteration of the statement loop of
`convertLitTemplateFunctionBody`: commands pushed, diagnostics reported,
and whether the statement sets `hasReturn`. A non-const variable
statement reports and pushes an `ErrorExpression` command; an
unrecognized statement only reports. -/
def stepStatement : StmtModel → List Node × List String × Bool
  | .ret lit =>
    let result := convertReturnStatementModel lit
    (result.1, result.2, true)
  | .varStmt true decls => (decls.map (fun p => Node.letCommand p.1 p.2 none), [], false)
  | .varStmt false _ => ([Node.errorExpression], ["non-const variable declaration"], false)
  | .other => ([], ["unsupported statement"], false)

/-- The statement loop: concatenated commands and diagnostics, and the
`hasReturn` flag. -/
def convertStatements : List StmtModel → List Node × List String × Bool
  | [] => ([], [], false)
  | st :: rest =>
    let head := stepStatement st
    let tail := convertStatements rest
    (head.1 ++ tail.1, head.2.1 ++ tail.2.1, head.2.2 || tail.2.2)

/-- A template function body: either a block of statements or a concise
expression body (`litTemplate` as in `StmtModel.ret`). -/
inductive BodyModel where
  | block (stmts : List StmtModel)
  | expr (litTemplate : Option (List Node))

/-- `SoyConverter.convertLitTemplateFunctionBody`: a block runs the
statement loop and reports when no return statement was seen; a concise
body must be a lit-html tagged template, else the same diagnostic. -/
def convertLitTemplateFunctionBody : BodyModel → List Node × List String
  | .block stmts =>
    let result := convertStatements stmts
    (result.1,
      if result.2.2 then result.2.1
      else result.2.1 ++ ["litTemplates must return a TemplateResult"])
  | .expr none => ([], ["litTemplates must return a TemplateResult"])
  | .expr (some cmds) => (cmds, [])

/-- A statement form the claim calls accepted: a return of a lit-html
tagged template or a const local binding. -/
def acceptedStatement : StmtModel → Bool
  | .ret (some _) => true
  | .varStmt true _ => true
  | _ => false

/-- Whether a statement is a return statement. -/
def isReturnStatement : StmtModel → Bool
  | .ret _ => true
  | _ => false

/-- A body item of the run model: literal markup text or a text-position
call to a same-file template function binding. -/
inductive BodyItemSrc where
  | literal (s : String)
  | callTo (templateName : String)

/-- One top-level lit template declaration of a source file, for the run
model: its binding name and its body. -/
structure TemplateDeclSrc where
  name : String
  body : List BodyItemSrc

/-- The template-function-call path of `convertTextExpression`: a call
whose callee declaration is registered in `litTemplateDeclarations`
becomes a parameterless `CallCommand`; otherwise the expression falls
through to `Print(convertExpression(...))`, and `convertCallExpression`
reports an unsupported call and returns an error marker. The registry
list models the keys of the module-level map `litTemplateDeclarations`
(declarations of one program snapshot are identified by their binding
name). -/
def convertTextCallModel (registry : List String) (templateName : String) :
    List Node × List String :=
  if registry.contains templateName then ([Node.callCommand templateName []], [])
  else ([Node.print Node.errorExpression], ["unsupported call"])

/-- Converts one body item against the registry. -/
def convertBodyItemModel (registry : List String) : BodyItemSrc → List Node × List String
  | .literal s => ([Node.rawText s], [])
  | .callTo n => convertTextCallModel registry n

/-- `SoyConverter.convertLitTemplateFunction` for the run model: the
function is registered in `litTemplateDeclarations` first (a `Map.set`,
idempotent per key), then its body is converted against the updated
registry. Returns the updated registry, the template node and the
diagnostics. -/
def convertTemplateDeclRun (registry : List String) (d : TemplateDeclSrc) :
    List String × Node × List String :=
  let registry1 := if registry.contains d.name then registry else registry ++ [d.name]
  let result := d.body.foldl
    (fun acc item =>
      let conv := convertBodyItemModel registry1 item
      (acc.1 ++ conv.1, acc.2 ++ conv.2))
    ([], [])
  (registry1, Node.template d.name result.1, result.2)

/-- One conversion run (`SoyConverter.convertFile`) over the convertible
declarations of a source file. The registry is threaded in and out
because `litTemplateDeclarations` is declared at module level in
soy-generator.ts: a new `SoyConverter` does not reset it, so a second
run starts from the registry the first run left behind. -/
def convertFileRun (registry : List String) (decls : List TemplateDeclSrc) :
    List String × List Node × List String :=
  decls.foldl
    (fun acc d =>
      let conv := convertTemplateDeclRun acc.1 d
      (conv.1, acc.2.1 ++ [conv.2.1], acc.2.2 ++ conv.2.2))
    (registry, [], [])

/-- The `IfCommand` construction site of the boolean-reflected attribute
path: the source passes four arguments
(`booleanExpression, [RawText(name)], [], true`) but the `IfCommand`
constructor declares exactly three parameters (condition, whenTrue,
whenFalse), so at runtime the fourth argument is dropped; this function
reproduces those JavaScript call semantics. -/
def booleanAttrIfCommand (condition : Node) (name : String) (_fourth : Bool) : Node :=
  Node.ifCommand condition [Node.rawText name] []

/-! Helper lemmas: a tree containing an error marker never serializes. -/
mutual

theorem emit_fails : (n : Node) → containsError n = true → ∃ e, n.emit = .error e
  | .file cs, h => by
    obtain ⟨e, he⟩ := emitList_fails cs (by simpa [containsError] using h)
    exact ⟨e, by simp [Node.emit, he]⟩
  | .soyNamespace _, h => by simp [containsError] at h
  | .template name cs, h => by
    obtain ⟨e, he⟩ := emitList_fails cs (by simpa [containsError] using h)
    exact ⟨e, by simp [Node.emit, he]⟩
  | .templateParameter _ _, h => by simp [containsError] at h
  | .rawText _, h => by simp [containsError] at h
  | .print c, h => by
    obtain ⟨e, he⟩ := emit_fails c (by simpa [containsError] using h)
    exact ⟨e, by simp [Node.emit, he]⟩
  | .block cs, h => by
    obtain ⟨e, he⟩ := emitList_fails cs (by simpa [containsError] using h)
    exact ⟨e, by simp [Node.emit, he]⟩
  | .callParameter name v kind, h => by
    obtain ⟨e, he⟩ := emit_fails v (by simpa [containsError] using h)
    exact ⟨e, by simp [Node.emit, he]⟩
  | .callCommand name ps, h => by
    obtain ⟨e, he⟩ := emitList_fails ps (by simpa [containsError] using h)
    exact ⟨e, by simp [Node.emit, he]⟩
  | .ifCommand cond wt wf, h => by
    simp [containsError] at h
    cases hc : cond.emit with
    | error e => exact ⟨e, by simp [Node.emit, hc]⟩
    | ok c =>
      rcases h with (h | h) | h
      · obtain ⟨e, he⟩ := emit_fails cond h
        rw [he] at hc; exact absurd hc (by simp)
      · obtain ⟨e, he⟩ := emitList_fails wt h
        exact ⟨e, by simp [Node.emit, hc, he]⟩
      · cases ht : emitList wt with
        | error e => exact ⟨e, by simp [Node.emit, hc, ht]⟩
        | ok t =>
          obtain ⟨e, he⟩ := emitList_fails wf h
          exact ⟨e, by simp [Node.emit, hc, ht, he]⟩
  | .forCommand id e body, h => by
    simp [containsError] at h
    cases hc : e.emit with
    | error er => exact ⟨er, by simp [Node.emit, hc]⟩
    | ok s =>
      rcases h with h | h
      · obtain ⟨er, her⟩ := emit_fails e h
        rw [her] at hc; exact absurd hc (by simp)
      · obtain ⟨er, her⟩ := emitList_fails body h
        exact ⟨er, by simp [Node.emit, hc, her]⟩
  | .letCommand id v kind, h => by
    obtain ⟨e, he⟩ := emit_fails v (by simpa [containsError] using h)
    exact ⟨e, by simp [Node.emit, he]⟩
  | .numberLiteral _, h => by simp [containsError] at h
  | .booleanLiteral _, h => by simp [containsError] at h
  | .nullLiteral, h => by simp [containsError] at h
  | .stringLiteral _, h => by simp [containsError] at h
  | .identifier _, h => by simp [containsError] at h
  | .unaryOperator op c, h => by
    obtain ⟨e, he⟩ := emit_fails c (by simpa [containsError] using h)
    exact ⟨e, by simp [Node.emit, he]⟩
  | .binaryOperator op l r, h => by
    simp [containsError] at h
    cases hl : l.emit with
    | error e => exact ⟨e, by simp [Node.emit, hl]⟩
    | ok s =>
      rcases h with h | h
      · obtain ⟨e, he⟩ := emit_fails l h
        rw [he] at hl; exact absurd hl (by simp)
      · obtain ⟨e, he⟩ := emit_fails r h
        exact ⟨e, by simp [Node.emit, hl, he]⟩
  | .propertyAccess r name, h => by
    obtain ⟨e, he⟩ := emit_fails r (by simpa [containsError] using h)
    exact ⟨e, by simp [Node.emit, he]⟩
  | .callExpression fname args, h => by
    obtain ⟨e, he⟩ := emitArgs_fails args (by simpa [containsError] using h)
    exact ⟨e, by simp [Node.emit, he]⟩
  | .errorExpression, _ => ⟨emitErrorMessage, by simp [Node.emit]⟩
  | .paren c, h => by
    obtain ⟨e, he⟩ := emit_fails c (by simpa [containsError] using h)
    exact ⟨e, by simp [Node.emit, he]⟩
  | .index r a, h => by
    simp [containsError] at h
    cases hr : r.emit with
    | error e => exact ⟨e, by simp [Node.emit, hr]⟩
    | ok s =>
      rcases h with h | h
      · obtain ⟨e, he⟩ := emit_fails r h
        rw [he] at hr; exact absurd hr (by simp)
      · obtain ⟨e, he⟩ := emit_fails a h
        exact ⟨e, by simp [Node.emit, hr, he]⟩
  | .ternary c t f, h => by
    simp [containsError] at h
    cases hc : c.emit with
    | error e => exact ⟨e, by simp [Node.emit, hc]⟩
    | ok cs =>
      rcases h with (h | h) | h
      · obtain ⟨e, he⟩ := emit_fails c h
        rw [he] at hc; exact absurd hc (by simp)
      · obtain ⟨e, he⟩ := emit_fails t h
        exact ⟨e, by simp [Node.emit, hc, he]⟩
      · cases ht : t.emit with
        | error e => exact ⟨e, by simp [Node.emit, hc, ht]⟩
        | ok ts =>
          obtain ⟨e, he⟩ := emit_fails f h
          exact ⟨e, by simp [Node.emit, hc, ht, he]⟩
  | .record es, h => by
    obtain ⟨e, he⟩ := emitEntries_fails es (by simpa [containsError] using h)
    exact ⟨e, by simp [Node.emit, he]⟩

theorem emitList_fails : (l : List Node) → containsErrorList l = true → ∃ e, emitList l = .error e
  | [], h => by simp [containsErrorList] at h
  | c :: cs, h => by
    simp [containsErrorList] at h
    cases hc : c.emit with
    | error e => exact ⟨e, by simp [emitList, hc]⟩
    | ok s =>
      rcases h with h | h
      · obtain ⟨e, he⟩ := emit_fails c h
        rw [he] at hc; exact absurd hc (by simp)
      · obtain ⟨e, he⟩ := emitList_fails cs h
        exact ⟨e, by simp [emitList, hc, he]⟩

theorem emitArgs_fails : (l : List Node) → containsErrorList l = true → ∃ e, emitArgs l = .error e
  | [], h => by simp [containsErrorList] at h
  | [a], h => by
    simp [containsErrorList] at h
    obtain ⟨e, he⟩ := emit_fails a h
    exact ⟨e, by simp [emitArgs, he]⟩
  | a :: b :: rest, h => by
    simp [containsErrorList] at h
    cases ha : a.emit with
    | error e => exact ⟨e, by simp [emitArgs, ha]⟩
    | ok s =>
      rcases h with h | h
      · obtain ⟨e, he⟩ := emit_fails a h
        rw [he] at ha; exact absurd ha (by simp)
      · obtain ⟨e, he⟩ := emitArgs_fails (b :: rest) (by simpa [containsErrorList] using h)
        exact ⟨e, by simp [emitArgs, ha, he]⟩

theorem emitEntries_fails :
    (l : List (String × Node)) → containsErrorEntries l = true → ∃ e, emitEntries l = .error e
  | [], h => by simp [containsErrorEntries] at h
  | [(k, v)], h => by
    simp [containsErrorEntries] at h
    obtain ⟨e, he⟩ := emit_fails v h
    exact ⟨e, by simp [emitEntries, he]⟩
  | (k, v) :: p :: rest, h => by
    simp [containsErrorEntries] at h
    cases hv : v.emit with
    | error e => exact ⟨e, by simp [emitEntries, hv]⟩
    | ok s =>
      rcases h with h | h
      · obtain ⟨e, he⟩ := emit_fails v h
        rw [he] at hv; exact absurd hv (by simp)
      · obtain ⟨e, he⟩ := emitEntries_fails (p :: rest) (by simpa [containsErrorEntries] using h)
        exact ⟨e, by simp [emitEntries, hv, he]⟩

end

/-- C1: serializing a tree that contains an error-marker node raises a
hard failure: `emit` on any tree containing an `ErrorExpression` returns
an error, materializing the content of an output file whose AST contains
one fails the same way, and the failure is at serialization time only —
recording a diagnostic (`report`) always succeeds, merely appending. -/
theorem error_marker_serialization_fails (tree : Node)
    (h : containsError tree = true) :
    (∃ e, tree.emit = Except.error e) ∧ (∃ e, fileContent tree = Except.error e) ∧
    (∀ ds d, report ds d = ds ++ [d]) := by
  obtain ⟨e, he⟩ := emit_fails tree h
  exact ⟨⟨e, he⟩, ⟨e, by simp [fileContent, he]⟩, fun ds d => rfl⟩

/-- Witness for C1 at a concrete output tree. -/
theorem error_marker_serialization_fails_witness :
    containsError (Node.file [Node.template "t" [Node.print Node.errorExpression]]) = true ∧
    ∃ e, (Node.file [Node.template "t" [Node.print Node.errorExpression]]).emit =
      Except.error e :=
  ⟨rfl,
    (error_marker_serialization_fails
      (Node.file [Node.template "t" [Node.print Node.errorExpression]]) rfl).1⟩

/-- C10: an `IfCommand` serializes with an explicit else section even
when its false branch is empty — the boolean-attribute conditional emits
the if header, the bare attribute name, the else marker and the closing
marker — and the `IfCommand` constructor stores exactly condition,
whenTrue and whenFalse, so the fourth argument passed at the
boolean-attribute construction site has no effect on the constructed
node or its output. -/
theorem ifCommand_always_emits_else (cond : Node) (name : String) (b1 b2 : Bool) :
    booleanAttrIfCommand cond name b1 = booleanAttrIfCommand cond name b2 ∧
    (booleanAttrIfCommand cond name b1).emit =
      cond.emit.map
        (fun c => "\n\x7bif " ++ c ++ "\x7d\n" ++ name ++ "\n\x7belse\x7d\n" ++ "\n\x7b/if\x7d\n") ∧
    (∀ wt wf s, (Node.ifCommand cond wt wf).emit = Except.ok s →
      ∃ a b, s = a ++ "\n\x7belse\x7d\n" ++ b) := by
  refine ⟨rfl, ?_, ?_⟩
  · cases hc : cond.emit with
    | error e => simp [booleanAttrIfCommand, Node.emit, hc, Except.map]
    | ok c => simp [booleanAttrIfCommand, Node.emit, emitList, hc, Except.map]
  · intro wt wf s h
    rw [Node.emit] at h
    cases hc : cond.emit with
    | error e => rw [hc] at h; exact absurd h (by simp)
    | ok c =>
      rw [hc] at h
      cases ht : emitList wt with
      | error e => rw [ht] at h; exact absurd h (by simp)
      | ok t =>
        rw [ht] at h
        cases hf : emitList wf with
        | error e => rw [hf] at h; exact absurd h (by simp)
        | ok f =>
          rw [hf] at h
          simp only [Except.ok.injEq] at h
          exact ⟨"\n\x7bif " ++ c ++ "\x7d\n" ++ t, f ++ "\n\x7b/if\x7d\n",
            by rw [← h]; simp [String.append_assoc]⟩

/-- Witness for C10 at a concrete conditional. -/
theorem ifCommand_always_emits_else_witness :
    ∃ a b, ("\n\x7bif $x\x7d\n" ++ "checked" ++ "\n\x7belse\x7d\n" ++ "\n\x7b/if\x7d\n" : String) =
      a ++ "\n\x7belse\x7d\n" ++ b :=
  (ifCommand_always_emits_else (Node.identifier "x") "checked" true false).2.2
    [Node.rawText "checked"] [] _ (by rfl)

/-- C6: the reflected-attribute lookup returns the tag-specific entry
when the tag map holds the property, otherwise falls back to the
wildcard entry, and returns none exactly when neither map holds the
property; the returned pair carries the reflected attribute name and the
boolean-valued flag (checked on input is boolean, id falls back to the
wildcard even though input has a tag map, className reflects to class on
any tag, and value on a tag without an entry is not reflected). -/
theorem getReflectedAttribute_tag_specific_wins_then_wildcard (p t : String) :
    (∀ r, ((reflectedAttributes.lookup t).getD []).lookup p = some r →
      getReflectedAttribute p t = some (r.attributeName, r.isBoolean)) ∧
    (((reflectedAttributes.lookup t).getD []).lookup p = none →
      getReflectedAttribute p t =
        (wildcardReflection p).map (fun r => (r.attributeName, r.isBoolean))) ∧
    (getReflectedAttribute p t = none ↔
      ((reflectedAttributes.lookup t).getD []).lookup p = none ∧
        wildcardReflection p = none) ∧
    getReflectedAttribute "checked" "input" = some ("checked", true) ∧
    getReflectedAttribute "id" "input" = some ("id", false) ∧
    getReflectedAttribute "className" "div" = some ("class", false) ∧
    getReflectedAttribute "value" "div" = none := by
  refine ⟨?_, ?_, ?_, by decide, by decide, by decide, by decide⟩
  · intro r hr
    unfold getReflectedAttribute
    cases h : reflectedAttributes.lookup t with
    | none => simp [h] at hr
    | some m =>
      simp only [h, Option.getD_some] at hr
      simp [hr]
  · intro hn
    unfold getReflectedAttribute
    cases h : reflectedAttributes.lookup t with
    | none => simp [h]
    | some m =>
      simp only [h, Option.getD_some] at hn
      simp [hn]
  · unfold getReflectedAttribute
    cases h : reflectedAttributes.lookup t with
    | none => simp [h, Option.map_eq_none']
    | some m =>
      cases hp : m.lookup p with
      | some r => simp [h, hp]
      | none => simp [h, hp, Option.map_eq_none']

/-- Witness for C6 at a concrete property and tag. -/
theorem getReflectedAttribute_tag_specific_wins_then_wildcard_witness :
    getReflectedAttribute "checked" "input" = some ("checked", true) ∧
    getReflectedAttribute "disabled" "option" =
      (wildcardReflection "disabled").map (fun r => (r.attributeName, r.isBoolean)) :=
  ⟨(getReflectedAttribute_tag_specific_wins_then_wildcard "checked" "input").2.2.2.1,
    (getReflectedAttribute_tag_specific_wins_then_wildcard "disabled" "option").2.1 (by decide)⟩

/-- C5 counterexample: a list-shaped type reference with two type
arguments (a tuple) does not degrade to the untyped list as claimed — it
falls through to undefined. -/
theorem getSoyType_two_type_args_counterexample :
    getSoyType (TsType.mk false false false false true true true
      (some [TsType.mk false false false false false false false none,
        TsType.mk false false false false false false false none])) = Except.ok none ∧
    (Except.ok none : Except String (Option String)) ≠ Except.ok (some "list") := by
  constructor
  · rfl
  · intro h
    exact absurd (Except.ok.inj h) (by simp)

/-- C5 (amended): the type mapper tests assignability in the priority
order boolean, number, string, null-or-undefined, list; a list-shaped
type that is not an object type reference throws; a list with a missing
or empty type-argument list degrades to the untyped list; a list with
exactly one type argument recursively maps the element type into a
parameterized name (undefined element types render as the text
undefined); a list with two or more type arguments yields undefined,
not the untyped list; any type matching no shape yields undefined and
the caller reports an unknown-type diagnostic. -/
theorem getSoyType_priority_order_and_lists :
    (∀ n s nl arr obj ref args,
      getSoyType (.mk true n s nl arr obj ref args) = .ok (some "bool")) ∧
    (∀ s nl arr obj ref args,
      getSoyType (.mk false true s nl arr obj ref args) = .ok (some "number")) ∧
    (∀ nl arr obj ref args,
      getSoyType (.mk false false true nl arr obj ref args) = .ok (some "string")) ∧
    (∀ arr obj ref args,
      getSoyType (.mk false false false true arr obj ref args) = .ok (some "null")) ∧
    (∀ ref args,
      getSoyType (.mk false false false false true false ref args) =
        .error "unexpected type") ∧
    (∀ args,
      getSoyType (.mk false false false false true true false args) =
        .error "unexpected type") ∧
    getSoyType (.mk false false false false true true true none) = .ok (some "list") ∧
    getSoyType (.mk false false false false true true true (some [])) = .ok (some "list") ∧
    (∀ t0, getSoyType (.mk false false false false true true true (some [t0])) =
      (getSoyType t0).map (fun s0 => some ("list<" ++ s0.getD "undefined" ++ ">"))) ∧
    (∀ t0 t1 rest,
      getSoyType (.mk false false false false true true true (some (t0 :: t1 :: rest))) =
        .ok none) ∧
    (∀ obj ref args, getSoyType (.mk false false false false false obj ref args) = .ok none) ∧
    (∀ obj ref args ds,
      getSoyTypeOfNode true (.mk false false false false false obj ref args) ds =
        .ok (none, ds ++ ["unknown type"])) ∧
    getSoyType (.mk false false false false true true true
      (some [TsType.mk false false true false false false false none])) =
      .ok (some "list<string>") := by
  refine ⟨?_, ?_, ?_, ?_, ?_, ?_, rfl, rfl, ?_, fun t0 t1 rest => rfl, ?_, ?_, rfl⟩
  · intro n s nl arr obj ref args
    rcases args with _ | (_ | ⟨t0, _ | ⟨t1, rest⟩⟩) <;> rfl
  · intro s nl arr obj ref args
    rcases args with _ | (_ | ⟨t0, _ | ⟨t1, rest⟩⟩) <;> rfl
  · intro nl arr obj ref args
    rcases args with _ | (_ | ⟨t0, _ | ⟨t1, rest⟩⟩) <;> rfl
  · intro arr obj ref args
    rcases args with _ | (_ | ⟨t0, _ | ⟨t1, rest⟩⟩) <;> rfl
  · intro ref args
    rcases args with _ | (_ | ⟨t0, _ | ⟨t1, rest⟩⟩) <;> rfl
  · intro args
    rcases args with _ | (_ | ⟨t0, _ | ⟨t1, rest⟩⟩) <;> rfl
  · intro t0
    rw [getSoyType]
    cases h : getSoyType t0 with
    | error e => simp [h, Except.map]
    | ok s0 => simp [h, Except.map]
  · intro obj ref args
    rcases args with _ | (_ | ⟨t0, _ | ⟨t1, rest⟩⟩) <;> rfl
  · intro obj ref args ds
    rcases args with _ | (_ | ⟨t0, _ | ⟨t1, rest⟩⟩) <;> rfl

/-- C2 counterexample: two conversion-path helpers do throw — the symbol
resolver when the checker finds no symbol for an identifier, and the
type mapper on an array-assignable type that is not an object type
reference. -/
theorem conversion_throw_sites_counterexample :
    getOriginalSymbol "html" none 0 ⟨"html", false⟩ =
      Except.error ("Could not find symbol for identifier: " ++ "html") ∧
    getSoyType (TsType.mk false false false false true false false none) =
      Except.error "unexpected type" :=
  ⟨rfl, rfl⟩

/-- C2 (amended): recording a diagnostic is append-only and never aborts
the run, and unsupported constructs handled by the converters produce
diagnostics rather than exceptions; but the conversion run is not
throw-free — `getOriginalSymbol` throws whenever the checker returns no
symbol or a symbol with an empty declarations list, and `getSoyType`
throws on an array-assignable type that is not an object type reference;
otherwise the symbol resolver returns normally. -/
theorem report_appends_and_throw_characterization :
    (∀ ds d, report ds d = ds ++ [d]) ∧
    (∀ txt declCount aliased, getOriginalSymbol txt none declCount aliased =
      Except.error ("Could not find symbol for identifier: " ++ txt)) ∧
    (∀ txt s aliased, getOriginalSymbol txt (some s) 0 aliased =
      Except.error ("Could not find symbol for identifier: " ++ txt)) ∧
    (∀ txt s n aliased, (getOriginalSymbol txt (some s) (n + 1) aliased).isOk = true) ∧
    (∀ ref args, getSoyType (.mk false false false false true false ref args) =
      Except.error "unexpected type") ∧
    (∀ args, getSoyType (.mk false false false false true true false args) =
      Except.error "unexpected type") := by
  refine ⟨fun ds d => rfl, fun txt declCount aliased => rfl, fun txt s aliased => rfl,
    ?_, ?_, ?_⟩
  · intro txt s n aliased
    unfold getOriginalSymbol
    by_cases h : s.isAlias <;> simp [h, Except.isOk, Except.toBool]
  · intro ref args
    rcases args with _ | (_ | ⟨t0, _ | ⟨t1, rest⟩⟩) <;> rfl
  · intro args
    rcases args with _ | (_ | ⟨t0, _ | ⟨t1, rest⟩⟩) <;> rfl

/-- C4: a function-parameter frame matches exactly when the resolved
declaration is a parameter whose immediate parent is that function, a
local-binding frame matches by membership of the resolved declaration,
being in scope is having a first matching frame in the
innermost-to-outermost walk, an identifier matching no frame converts to
a diagnostic plus an error marker, and in a concrete loop-in-function
scope a loop variable shadowing an outer parameter of the same name
matches the innermost frame inside the loop while the outer parameter
matches only the outer frame. -/
theorem isInScope_first_match_and_shadowing :
    (∀ (id : IdentRef) (f : Nat),
      frameMatches id (ScopeFrame.funcFrame f) = true ↔
        ∃ d, id.resolved = some d ∧ d.isParam = true ∧ d.parentFunc = f) ∧
    (∀ (id : IdentRef) (decls : List Declaration),
      frameMatches id (ScopeFrame.localFrame decls) = true ↔
        ∃ d, id.resolved = some d ∧ d ∈ decls) ∧
    (∀ id scope, isInScope id scope = (firstMatchingFrame id scope).isSome) ∧
    (∀ id scope ds, isInScope id scope = false →
      convertIdentifierExpr id scope ds =
        (Node.errorExpression,
          ds ++ ["identifier references non-local parameter",
            "unsupported expression: " ++ id.text])) ∧
    firstMatchingFrame ⟨"x", some ⟨10, true, 1⟩⟩
      ⟨[ScopeFrame.funcFrame 1, ScopeFrame.funcFrame 0], none⟩ = some 0 ∧
    firstMatchingFrame ⟨"x", some ⟨11, true, 0⟩⟩
      ⟨[ScopeFrame.funcFrame 1, ScopeFrame.funcFrame 0], none⟩ = some 1 ∧
    isInScope ⟨"x", some ⟨10, true, 1⟩⟩ ⟨[ScopeFrame.funcFrame 0], none⟩ = false ∧
    isInScope ⟨"x", some ⟨11, true, 0⟩⟩ ⟨[ScopeFrame.funcFrame 0], none⟩ = true := by
  refine ⟨?_, ?_, ?_, ?_, by decide, by decide, by decide, by decide⟩
  · intro id f
    cases hr : id.resolved with
    | none => simp [frameMatches, isParameterOf, hr]
    | some d => simp [frameMatches, isParameterOf, hr]
  · intro id decls
    cases hr : id.resolved with
    | none => simp [frameMatches, hr]
    | some d => simp [frameMatches, hr]
  · intro id scope
    obtain ⟨frames, el⟩ := scope
    induction frames with
    | nil => simp [isInScope, firstMatchingFrame]
    | cons fr rest ih =>
      by_cases h : frameMatches id fr
      · simp [isInScope, firstMatchingFrame, List.findIdx?_cons, h]
      · simpa [isInScope, firstMatchingFrame, List.findIdx?_cons, h] using ih
  · intro id scope ds h
    simp [convertIdentifierExpr, h]

/-- Witness for C4 at a concrete out-of-scope identifier. -/
theorem isInScope_first_match_and_shadowing_witness :
    convertIdentifierExpr ⟨"y", none⟩ ⟨[ScopeFrame.funcFrame 0], none⟩ [] =
      (Node.errorExpression,
        ["identifier references non-local parameter", "unsupported expression: " ++ "y"]) :=
  isInScope_first_match_and_shadowing.2.2.2.1 ⟨"y", none⟩
    ⟨[ScopeFrame.funcFrame 0], none⟩ [] (by decide)

/-- C7: a boolean-reflected property binding (checked on input) must be
exactly one interpolation with no non-empty literal fragments — under
more than one literal the success condition is equivalent to the split
being two empty literals; on success the loop emits a space and a
conditional whose true branch prints the bare attribute name and whose
false branch is empty, consuming one attribute part; on violation it
reports the single-expression diagnostic, emits nothing, and still
counts every interpolation of the value as an attribute part; and the
emitted conditional prints the bare name when the expression is truthy
and nothing otherwise. -/
theorem boolean_reflected_attribute_conversion (name : String) (exprs : List Node)
    (st : ConvState) (tl : List String) (h : 1 < tl.length) :
    (tl = ["", ""] ↔ ¬(tl.length > 2 ∨ tl.any (fun l => l ≠ "") = true)) ∧
    (tl = ["", ""] →
      processValue name true exprs st tl =
        { st with
          commands := st.commands ++
            [ Node.rawText " ",
              Node.ifCommand (exprs.getD st.partTypes.length Node.errorExpression)
                [Node.rawText name] [] ],
          partTypes := st.partTypes ++ [PartType.attribute] }) ∧
    ((tl.length > 2 ∨ tl.any (fun l => l ≠ "") = true) →
      processValue name true exprs st tl =
        { st with
          diags := st.diags ++
            ["boolean attribute " ++ name ++ " must only contain a single expression."],
          partTypes := st.partTypes ++ List.replicate (tl.length - 1) PartType.attribute }) ∧
    (∀ tl2, processAttr "input" exprs st ⟨AttrKind.property "checked", tl2⟩ =
      processValue "checked" true exprs st tl2) ∧
    (∀ cond, (Node.ifCommand cond [Node.rawText name] []).emit =
      cond.emit.map
        (fun c => "\n\x7bif " ++ c ++ "\x7d\n" ++ name ++ "\n\x7belse\x7d\n" ++ "\n\x7b/if\x7d\n")) := by
  refine ⟨?_, ?_, ?_, ?_, ?_⟩
  · constructor
    · rintro rfl
      simp
    · intro hc
      push_neg at hc
      obtain ⟨h2, hall⟩ := hc
      have hlen : tl.length = 2 := by omega
      obtain ⟨a, b, rfl⟩ := List.length_eq_two.mp hlen
      simp at hall
      obtain ⟨ha, hb⟩ := hall
      rw [ha, hb]
  · rintro rfl
    simp [processValue]
  · intro hviol
    have hcond : (tl.length > 2 || tl.any (fun l => l ≠ "")) = true := by
      rcases hviol with h2 | hsome
      · simp [h2]
      · simp only [Bool.or_eq_true, decide_eq_true_eq, List.any_eq_true]
        right
        simpa using hsome
    rw [processValue, if_neg (by omega : ¬tl.length ≤ 1), if_pos rfl, if_pos hcond]
  · intro tl2
    rfl
  · intro cond
    cases hc : cond.emit with
    | error e => simp [Node.emit, hc, Except.map]
    | ok c => simp [Node.emit, emitList, hc, Except.map]

/-- Witness for C7 at the concrete binding checked on input with a
single-interpolation value. -/
theorem boolean_reflected_attribute_conversion_witness :
    processValue "checked" true [Node.identifier "c"] ⟨[], [], []⟩ ["", ""] =
      { partTypes := [PartType.attribute],
        commands :=
          [ Node.rawText " ",
            Node.ifCommand (Node.identifier "c") [Node.rawText "checked"] [] ],
        diags := [] } :=
  (boolean_reflected_attribute_conversion "checked" [Node.identifier "c"]
    ⟨[], [], []⟩ ["", ""] (by decide)).2.1 rfl

/-- C8 counterexample: an unreflected property binding whose value holds
two interpolations consumes only one attribute part, so the following
attribute in the same element reads the wrong expression — after a
two-interpolation dropped binding, the bound title attribute prints the
expression at index one although its interpolation is the third of the
template (source-order index two). -/
theorem unreflected_binding_misindex_counterexample :
    processAttrs "div" [Node.identifier "e0", Node.identifier "e1", Node.identifier "e2"]
      ⟨[], [], []⟩
      [⟨AttrKind.property "foo", ["", "", ""]⟩, ⟨AttrKind.plain "title", ["", ""]⟩] =
      { partTypes := [PartType.attribute, PartType.attribute],
        commands :=
          [ Node.rawText " title=\"", Node.rawText "",
            Node.print (Node.identifier "e1"), Node.rawText "", Node.rawText "\"" ],
        diags := [] } ∧
    (["", "", ""] : List String).length - 1 = 2 ∧
    Node.identifier "e1" ≠ Node.identifier "e2" := by
  refine ⟨rfl, rfl, ?_⟩
  intro h
  exact absurd (Node.identifier.inj h) (by decide)

/-- C8 (amended): a property binding whose property has no reflection
entry for its tag is dropped entirely — no command, no diagnostic — and
exactly one interpolation is consumed and classified attribute, so
index accounting for subsequent interpolations remains correct exactly
when the dropped value contained exactly one interpolation. -/
theorem unreflected_property_binding_dropped (tagName prop : String) (exprs : List Node)
    (st : ConvState) (tl : List String)
    (h : getReflectedAttribute prop tagName = none) :
    processAttr tagName exprs st ⟨AttrKind.property prop, tl⟩ =
      { st with partTypes := st.partTypes ++ [PartType.attribute] } ∧
    (tl.length - 1 = 1 ↔ tl.length = 2) := by
  constructor
  · simp [processAttr, h]
  · omega

/-- Witness for C8 at the concrete unreflected binding. -/
theorem unreflected_property_binding_dropped_witness :
    processAttr "div" [] ⟨[], [], []⟩ ⟨AttrKind.property "foo", ["", ""]⟩ =
      { partTypes := [PartType.attribute], commands := [], diags := [] } :=
  (unreflected_property_binding_dropped "div" "foo" [] ⟨[], [], []⟩ ["", ""] (by decide)).1

/-- C9 counterexample: a block whose offending statement is a non-const
variable binding is not handled by the unsupported-statement path — it
reports the non-const diagnostic and contributes an error-marker
command rather than being skipped. -/
theorem nonconst_statement_counterexample :
    convertLitTemplateFunctionBody (BodyModel.block
      [StmtModel.varStmt false [("x", Node.numberLiteral "1")],
        StmtModel.ret (some [])]) =
      ([Node.errorExpression], ["non-const variable declaration"]) ∧
    ("non-const variable declaration" : String) ≠ "unsupported statement" ∧
    ([Node.errorExpression] : List Node) ≠ [] := by
  refine ⟨rfl, by decide, by simp⟩

/-- C9 (amended): a template function body is a single lit-html tagged
template or a block; a return of such a template contributes its
converted commands, a const binding contributes one let command per
declaration, a non-const variable statement reports a non-const
diagnostic and contributes an error-marker command, any other statement
form reports an unsupported-statement diagnostic and contributes
nothing; a block of accepted statements reports nothing and has seen a
return exactly when one of them is a return; and a block that saw no
return gets the must-return-a-TemplateResult diagnostic appended. -/
theorem body_statement_dispatch :
    (∀ cmds, convertLitTemplateFunctionBody (BodyModel.expr (some cmds)) = (cmds, [])) ∧
    convertLitTemplateFunctionBody (BodyModel.expr none) =
      ([], ["litTemplates must return a TemplateResult"]) ∧
    (∀ cmds, stepStatement (StmtModel.ret (some cmds)) = (cmds, [], true)) ∧
    stepStatement (StmtModel.ret none) =
      ([], ["litTemplates must return a TemplateResult"], true) ∧
    (∀ decls, stepStatement (StmtModel.varStmt true decls) =
      (decls.map (fun p => Node.letCommand p.1 p.2 none), [], false)) ∧
    (∀ decls, stepStatement (StmtModel.varStmt false decls) =
      ([Node.errorExpression], ["non-const variable declaration"], false)) ∧
    stepStatement StmtModel.other = ([], ["unsupported statement"], false) ∧
    (∀ stmts, (∀ st ∈ stmts, acceptedStatement st = true) →
      (convertStatements stmts).2.1 = [] ∧
      (convertStatements stmts).2.2 = stmts.any isReturnStatement) ∧
    (∀ stmts, (convertStatements stmts).2.2 = false →
      convertLitTemplateFunctionBody (BodyModel.block stmts) =
        ((convertStatements stmts).1,
          (convertStatements stmts).2.1 ++ ["litTemplates must return a TemplateResult"])) := by
  refine ⟨fun cmds => rfl, rfl, fun cmds => rfl, rfl, fun decls => rfl,
    fun decls => rfl, rfl, ?_, ?_⟩
  · intro stmts hacc
    induction stmts with
    | nil => simp [convertStatements]
    | cons st rest ih =>
      have hst := hacc st (by simp)
      have hrest := ih (fun s hs => hacc s (by simp [hs]))
      cases st with
      | ret lit =>
        cases lit with
        | none => simp [acceptedStatement] at hst
        | some cmds =>
          simp [convertStatements, stepStatement, convertReturnStatementModel,
            hrest.1, hrest.2, isReturnStatement]
      | varStmt isConst decls =>
        cases isConst with
        | false => simp [acceptedStatement] at hst
        | true =>
          simp [convertStatements, stepStatement, hrest.1, hrest.2, isReturnStatement]
      | other => simp [acceptedStatement] at hst
  · intro stmts h
    rw [convertLitTemplateFunctionBody, h]
    simp

/-- Witness for C9 at a concrete accepted block without a return. -/
theorem body_statement_dispatch_witness :
    (convertStatements [StmtModel.varStmt true [("x", Node.numberLiteral "1")]]).2.1 = [] ∧
    (convertStatements [StmtModel.varStmt true [("x", Node.numberLiteral "1")]]).2.2 =
      [StmtModel.varStmt true [("x", Node.numberLiteral "1")]].any isReturnStatement :=
  body_statement_dispatch.2.2.2.2.2.2.2.1
    [StmtModel.varStmt true [("x", Node.numberLiteral "1")]]
    (by intro s hs; simp at hs; rw [hs]; rfl)

/-- C3: the table registering template-function declarations is a
module-level map shared across converter instances and never cleared, so
two runs over the same file are not identical: a file whose template A
calls template B declared later yields an unsupported-call diagnostic
and an error-marker command on the first run, while a second run over
the same input starts with B already registered and converts the call
cleanly — different diagnostics, different commands, and an output that
serializes in one run but not the other. -/
theorem registry_cross_run_leakage :
    (convertFileRun [] [⟨"A", [BodyItemSrc.callTo "B"]⟩, ⟨"B", []⟩]).2.2 =
      ["unsupported call"] ∧
    (convertFileRun (convertFileRun [] [⟨"A", [BodyItemSrc.callTo "B"]⟩, ⟨"B", []⟩]).1
      [⟨"A", [BodyItemSrc.callTo "B"]⟩, ⟨"B", []⟩]).2.2 = [] ∧
    (convertFileRun [] [⟨"A", [BodyItemSrc.callTo "B"]⟩, ⟨"B", []⟩]).1 = ["A", "B"] ∧
    containsError
      (Node.file (convertFileRun [] [⟨"A", [BodyItemSrc.callTo "B"]⟩, ⟨"B", []⟩]).2.1) =
      true ∧
    containsError
      (Node.file (convertFileRun ["A", "B"]
        [⟨"A", [BodyItemSrc.callTo "B"]⟩, ⟨"B", []⟩]).2.1) = false :=
  ⟨rfl, rfl, rfl, rfl, rfl⟩
